import Mathlib

/-!
# Verification of the NeuralRuntime numeric kernel

Shallow embedding of `src/src/wasm/lib.rs`.  Machine integers (`u32`,
`u64`, `usize`) are modelled as `Nat` with explicit `% 2^w` where the
source relies on wrapping arithmetic.  `f32` values flowing through the
pseudo-random generator are modelled exactly: the only `f32` operations
there are `u64 as f32` (round-to-nearest-even to a 24-bit significand,
modelled by `f32_round_nat`) and one division whose result is exactly
representable (quotient of two dyadic values with a 24-bit significand),
so the emitted value is captured bit-for-bit as a rational.  The other
numeric kernels are modelled over exact rationals (`ℚ`), and the
activation kernel over `ℝ` (it involves the transcendental `tanh`).
-/

/-- Classification of a 32-bit float argument as far as the validator in
`calculate_neural_activation` can observe it: a finite value (carried
exactly as a rational), a NaN, or an infinity of either sign. -/
inductive F32 where
  | finite (q : ℚ)
  | nan
  | posInf
  | negInf
deriving DecidableEq, Repr

/-- `f32::is_finite` on the modelled value. -/
def F32.isFinite : F32 → Bool
  | .finite _ => true
  | _ => false

/-- `input.abs() > 1000.0` on the modelled value.  IEEE comparisons with
NaN are false; the absolute value of an infinity exceeds every finite
bound. -/
def F32.absGt1000 : F32 → Bool
  | .finite q => decide ((1000 : ℚ) < |q|)
  | .nan => false
  | .posInf => true
  | .negInf => true

/-- Real value of a validated (hence finite) input; the non-finite
constructors are unreachable after validation and are mapped to 0. -/
noncomputable def F32.toReal : F32 → ℝ
  | .finite q => (q : ℝ)
  | _ => 0

/-- The error taxonomy of the validation layer.  The source aborts via
abort macros; following the design note of the spec the abort is
embedded as an explicit error value. -/
inductive ValidationError where
  | SizeLimitExceeded
  | NonFiniteValue
  | OutOfBounds
deriving DecidableEq, Repr

/-- `struct NeuralRuntime` (lib.rs:8-13).  The `Vec<f32>` backing buffer
only ever holds zeros written by `resize`, so it is abstracted by its
logical length and capacity (the only attributes the code reads). -/
structure NeuralRuntime where
  memory_pool_len : ℕ
  memory_pool_cap : ℕ
  simd_enabled : Bool
  operations_count : ℕ
  memory_usage : ℕ
deriving DecidableEq, Repr

/-- `detect_simd_support` (lib.rs:33-37): hard-coded `true`. -/
def detect_simd_support : Bool := true

/-- `NeuralRuntime::new` (lib.rs:18-25): empty pool with capacity for
1024*1024 floats, SIMD flag from detection, zeroed counters. -/
def NeuralRuntime.new : NeuralRuntime :=
  { memory_pool_len := 0
    memory_pool_cap := 1024 * 1024
    simd_enabled := detect_simd_support
    operations_count := 0
    memory_usage := 0 }

/-- `self.operations_count += 1` on a `u32` field (release-mode wrapping
semantics). -/
def NeuralRuntime.bump (rt : NeuralRuntime) : NeuralRuntime :=
  { rt with operations_count := (rt.operations_count + 1) % 2 ^ 32 }

/-! ## The pseudo-random generator (lib.rs:194-210) -/

/-- Number of binary digits of `n` (fuel-based so that kernel reduction
is cheap; the fuel 80 covers every value below `2^80`, and all inputs
here are below `2^64`). -/
def bitsAux : ℕ → ℕ → ℕ
  | 0, _ => 0
  | fuel + 1, n => if n = 0 then 0 else bitsAux fuel (n / 2) + 1

/-- Bit length of a `u64`-ranged natural. -/
def bits (n : ℕ) : ℕ := bitsAux 80 n

/-- `v as f32` for an unsigned integer `v`: IEEE-754 binary32
round-to-nearest, ties-to-even, expressed on naturals.  A value with at
most 24 significant bits is exact; otherwise the low `k = bits - 24`
bits are rounded away.  (No overflow handling is needed: every input
here is at most `2^64 - 1` and rounds to at most `2^64`, far below the
f32 maximum `(2^24-1)*2^104`.) -/
def f32_round_nat (x : ℕ) : ℕ :=
  if bits x ≤ 24 then x
  else
    let k := bits x - 24
    let q := x / 2 ^ k
    let r := x % 2 ^ k
    let half := 2 ^ (k - 1)
    let q' := if r < half then q
      else if half < r then q + 1
      else if q % 2 = 0 then q else q + 1
    q' * 2 ^ k

/-- The seed derivation (lib.rs:198-200):
`(operations_count as u64).wrapping_mul(6364136223846793005).wrapping_add(1442695040888963407)`. -/
def lcg_seed (ops : ℕ) : ℕ :=
  (ops * 6364136223846793005 + 1442695040888963407) % 2 ^ 64

/-- The three-step xorshift scramble (lib.rs:203-206):
`x ^= x << 13; x ^= x >> 7; x ^= x << 17` on `u64`. -/
def xorshift64 (s : ℕ) : ℕ :=
  let x1 := s ^^^ ((s <<< 13) % 2 ^ 64)
  let x2 := x1 ^^^ (x1 >>> 7)
  x2 ^^^ ((x2 <<< 17) % 2 ^ 64)

/-- `pseudo_random` (lib.rs:194-210).  The final line of the source is
`(x as f32) / (u64::MAX as f32)`.  Both conversions are modelled by
`f32_round_nat`; the `f32` division itself is exact (numerator and
denominator are dyadic with a 24-bit significand and the quotient is
again representable: `m * 2^e / 2^64 = m * 2^(e-64)`, with
`2^(e-64) ≥ 2^-64` well above the subnormal threshold), so the rational
quotient below is bit-for-bit the produced `f32`. -/
def NeuralRuntime.pseudo_random (rt : NeuralRuntime) : ℚ :=
  (f32_round_nat (xorshift64 (lcg_seed rt.operations_count)) : ℚ) /
    (f32_round_nat (2 ^ 64 - 1) : ℚ)

example : f32_round_nat (2 ^ 64 - 1) = 2 ^ 64 := by decide
example : (NeuralRuntime.new.bump).operations_count = 1 := by decide
example :
    ({ NeuralRuntime.new with operations_count := 2 } : NeuralRuntime).pseudo_random =
      (275674898255314944 : ℚ) / 2 ^ 64 := by
  have h1 : f32_round_nat (xorshift64 (lcg_seed 2)) = 275674898255314944 := by decide
  have h2 : f32_round_nat (2 ^ 64 - 1) = 2 ^ 64 := by decide
  unfold NeuralRuntime.pseudo_random
  rw [show ({ NeuralRuntime.new with operations_count := 2 } :
        NeuralRuntime).operations_count = 2 from rfl, h1, h2]
  norm_num

/-! ## Connection optimization (lib.rs:132-191) -/

/-- Rust `f32::clamp(self, min, max)` on the NaN-free domain: `min` if
the value is below `min`, `max` if above `max`, otherwise the value. -/
def rust_clamp (x lo hi : ℚ) : ℚ :=
  if x < lo then lo else if hi < x then hi else x

/-- `simd_random_vec` (lib.rs:184-191): four scalar draws
`r1..r4 = pseudo_random() - 0.5` packed into an `f32x4`.
`pseudo_random` borrows `&self` immutably and advances no state, so all
four draws happen at the same counter value. -/
def NeuralRuntime.simd_random_vec (rt : NeuralRuntime) : ℚ × ℚ × ℚ × ℚ :=
  let r1 := rt.pseudo_random - 1/2
  let r2 := rt.pseudo_random - 1/2
  let r3 := rt.pseudo_random - 1/2
  let r4 := rt.pseudo_random - 1/2
  (r1, r2, r3, r4)

/-- Lane `j` of an `f32x4` value. -/
def lane4 (v : ℚ × ℚ × ℚ × ℚ) : ℕ → ℚ
  | 0 => v.1
  | 1 => v.2.1
  | 2 => v.2.2.1
  | _ => v.2.2.2

/-- Element `i` of the output of `simd_optimize_connections`
(lib.rs:142-174).  Indices inside a full chunk (`i < 4 * (len / 4)`)
take the SIMD route: `adjusted = conn + r_lane * 0.1` followed by
`f32x4_max(0, f32x4_min(1, adjusted))`; the tail loop applies the
scalar `clamp` form. -/
def NeuralRuntime.simd_optimize_elem (rt : NeuralRuntime) (conns : List ℚ) (i : ℕ) : ℚ :=
  if i < 4 * (conns.length / 4) then
    max 0 (min 1 (conns.getD i 0 + lane4 rt.simd_random_vec (i % 4) * (1/10)))
  else
    rust_clamp (conns.getD i 0 + (rt.pseudo_random - 1/2) * (1/10)) 0 1

/-- `simd_optimize_connections` (lib.rs:142-174): the output vector is
preallocated at input length and written index by index. -/
def NeuralRuntime.simd_optimize_connections (rt : NeuralRuntime) (conns : List ℚ) : List ℚ :=
  (List.range conns.length).map (rt.simd_optimize_elem conns)

/-- `scalar_optimize_connections` (lib.rs:176-181). -/
def NeuralRuntime.scalar_optimize_connections (rt : NeuralRuntime) (conns : List ℚ) : List ℚ :=
  conns.map (fun w => rust_clamp (w + (rt.pseudo_random - 1/2) * (1/10)) 0 1)

/-- `optimize_connections` (lib.rs:132-140): bump the operation counter,
then dispatch on the SIMD flag and the input length. -/
def NeuralRuntime.optimize_connections (rt : NeuralRuntime) (conns : List ℚ) :
    NeuralRuntime × List ℚ :=
  let rt' := rt.bump
  (rt', if rt'.simd_enabled ∧ 4 ≤ conns.length then rt'.simd_optimize_connections conns
    else rt'.scalar_optimize_connections conns)

lemma rust_clamp_eq_max_min (x : ℚ) : rust_clamp x 0 1 = max 0 (min 1 x) := by
  unfold rust_clamp
  split_ifs with h1 h2
  · rw [min_eq_right (by linarith : x ≤ (1:ℚ)), max_eq_left (by linarith : x ≤ (0:ℚ))]
  · rw [min_eq_left (by linarith : (1:ℚ) ≤ x), max_eq_right (by linarith : (0:ℚ) ≤ 1)]
  · rw [min_eq_right (by linarith : x ≤ (1:ℚ)), max_eq_right (by linarith : (0:ℚ) ≤ x)]

lemma rust_clamp_nonneg (x : ℚ) : 0 ≤ rust_clamp x 0 1 := by
  unfold rust_clamp
  split_ifs with h1 h2
  · exact le_refl 0
  · exact zero_le_one
  · exact not_lt.mp h1

lemma rust_clamp_le_one (x : ℚ) : rust_clamp x 0 1 ≤ 1 := by
  unfold rust_clamp
  split_ifs with h1 h2
  · exact zero_le_one
  · exact le_refl 1
  · exact not_lt.mp h2

lemma lane4_const (r : ℚ) (n : ℕ) : lane4 (r, r, r, r) n = r := by
  rcases n with _ | _ | _ | n <;> rfl

lemma simd_random_vec_eq (rt : NeuralRuntime) :
    rt.simd_random_vec = (rt.pseudo_random - 1/2, rt.pseudo_random - 1/2,
      rt.pseudo_random - 1/2, rt.pseudo_random - 1/2) := rfl

/-- Every element of the lane-grouped optimization output is the scalar
clamp formula with the same (state-independent) draw. -/
lemma simd_optimize_elem_eq (rt : NeuralRuntime) (conns : List ℚ) (i : ℕ) :
    rt.simd_optimize_elem conns i =
      rust_clamp (conns.getD i 0 + (rt.pseudo_random - 1/2) * (1/10)) 0 1 := by
  unfold NeuralRuntime.simd_optimize_elem
  rw [simd_random_vec_eq, lane4_const, rust_clamp_eq_max_min]
  split <;> rfl

/-- The lane-grouped and scalar optimization paths compute the same
vector: each element gets `clamp(conn + (rand - 0.5) * 0.1, 0, 1)`. -/
lemma optimize_paths_eq (rt : NeuralRuntime) (conns : List ℚ) :
    rt.simd_optimize_connections conns = rt.scalar_optimize_connections conns := by
  apply List.ext_getElem
  · simp [NeuralRuntime.simd_optimize_connections, NeuralRuntime.scalar_optimize_connections]
  · intro i h1 h2
    have hc : i < conns.length := by
      simpa [NeuralRuntime.scalar_optimize_connections] using h2
    simp only [NeuralRuntime.simd_optimize_connections,
      NeuralRuntime.scalar_optimize_connections, List.getElem_map, List.getElem_range]
    rw [simd_optimize_elem_eq, List.getD_eq_getElem conns 0 hc]

/-- Whatever branch `optimize_connections` takes, the result is the
scalar map with the single post-bump draw. -/
lemma optimize_connections_eq (rt : NeuralRuntime) (conns : List ℚ) :
    rt.optimize_connections conns =
      (rt.bump, conns.map (fun w =>
        rust_clamp (w + (rt.bump.pseudo_random - 1/2) * (1/10)) 0 1)) := by
  simp only [NeuralRuntime.optimize_connections]
  split_ifs with h
  · rw [optimize_paths_eq]
    rfl
  · rfl

/-! ## Memory pool (lib.rs:312-341) -/

/-- `get_memory_usage` (lib.rs:313-315):
`memory_usage + capacity * size_of::<f32>()`. -/
def NeuralRuntime.get_memory_usage (rt : NeuralRuntime) : ℕ :=
  rt.memory_usage + rt.memory_pool_cap * 4

/-- `allocate_memory` (lib.rs:318-330).  `size_of::<f32>() = 4`.
`Vec::reserve` guarantees a capacity of at least `len + additional`;
the model takes that minimal guaranteed capacity (the allocator may
reserve more, but no claim settled here depends on the excess, and the
fresh-pool scenario of C9 never reaches the reserve branch). -/
def NeuralRuntime.allocate_memory (rt : NeuralRuntime) (size : ℕ) : NeuralRuntime × ℕ :=
  let required_floats := size / 4
  let cap := if rt.memory_pool_cap < rt.memory_pool_len + required_floats
    then max rt.memory_pool_cap (rt.memory_pool_len + required_floats)
    else rt.memory_pool_cap
  let ptr := rt.memory_pool_len
  ({ rt with memory_pool_len := rt.memory_pool_len + required_floats,
             memory_pool_cap := cap,
             memory_usage := rt.memory_usage + size }, ptr * 4)

/-- `deallocate_memory` (lib.rs:332-341): `saturating_sub` on the usage
counter (ℕ subtraction is exactly that), then the coarse reclamation
rule: a pool longer than 1M floats is cleared and its capacity
released. -/
def NeuralRuntime.deallocate_memory (rt : NeuralRuntime) (size : ℕ) : NeuralRuntime :=
  let rt1 := { rt with memory_usage := rt.memory_usage - size }
  if 1024 * 1024 < rt1.memory_pool_len then
    { rt1 with memory_pool_len := 0, memory_pool_cap := 0 }
  else rt1

lemma deallocate_memory_usage (rt : NeuralRuntime) (size : ℕ) :
    (rt.deallocate_memory size).memory_usage = rt.memory_usage - size := by
  simp only [NeuralRuntime.deallocate_memory]
  split <;> rfl

/-! ## Chunked traversal lemmas

The lane-grouped kernels traverse the first `4 * (len / 4)` indices in
chunk order and the remaining tail scalar-wise.  These lemmas reduce
such index-driven traversals to plain list folds. -/

lemma sum_take_succ (l : List ℚ) (m : ℕ) (h : m < l.length) :
    (l.take (m + 1)).sum = (l.take m).sum + l.getD m 0 := by
  rw [List.take_succ, List.sum_append, List.getElem?_eq_getElem h,
    List.getD_eq_getElem l 0 h]
  simp

lemma sum_range_map_getD (l : List ℚ) (f : ℚ → ℚ) :
    ∀ m, m ≤ l.length →
      ((List.range m).map (fun i => f (l.getD i 0))).sum = ((l.map f).take m).sum := by
  intro m
  induction m with
  | zero => simp
  | succ m ih =>
    intro h
    have hm : m < l.length := h
    have hm2 : m < (l.map f).length := by simpa using hm
    rw [List.range_succ, List.map_append, List.sum_append, ih (le_of_lt hm),
      sum_take_succ (l.map f) m hm2]
    simp only [List.map_cons, List.map_nil, List.sum_cons, List.sum_nil, add_zero]
    rw [List.getD_eq_getElem l 0 hm, List.getD_eq_getElem (l.map f) 0 hm2,
      List.getElem_map]

/-! ## Spike train processing (lib.rs:214-264) -/

/-- The spike threshold test `x > 0.1`. -/
def is_spike (x : ℚ) : Bool := decide ((1 : ℚ)/10 < x)

/-- `simd_count_spikes` (lib.rs:231-264).  The chunk loop visits indices
`0 .. 4*(len/4)` in order and increments `count` for every element above
the threshold, testing each element scalar-wise (the SIMD comparison
mask the source builds is never consumed); the tail loop covers the
remaining indices the same way.  The running `count` is an `f32` holding
small integers, modelled exactly in `ℚ`. -/
def simd_count_spikes (spikes : List ℚ) : ℚ :=
  let chunks := spikes.length / 4
  ((List.range (4 * chunks)).map
      (fun i => if is_spike (spikes.getD i 0) then (1 : ℚ) else 0)).sum
  + ((spikes.drop (4 * chunks)).map (fun x => if is_spike x then (1 : ℚ) else 0)).sum

/-- `process_spike_train` (lib.rs:214-229). -/
def NeuralRuntime.process_spike_train (rt : NeuralRuntime) (spikes : List ℚ)
    (window_size : ℚ) : NeuralRuntime × ℚ :=
  let rt' := rt.bump
  if spikes = [] ∨ window_size ≤ 0 then (rt', 0)
  else
    let spike_count : ℚ :=
      if rt'.simd_enabled ∧ 4 ≤ spikes.length then simd_count_spikes spikes
      else (spikes.countP is_spike : ℚ)
    (rt', spike_count / (window_size / 1000))

lemma indicator_sum_countP (l : List ℚ) :
    (l.map (fun x => if is_spike x then (1 : ℚ) else 0)).sum = (l.countP is_spike : ℚ) := by
  induction l with
  | nil => simp
  | cons a t ih =>
    by_cases h : is_spike a <;>
      simp [List.countP_cons, h, ih, add_comm]

/-- The lane-grouped spike count equals the straightforward per-element
threshold count. -/
lemma simd_count_spikes_eq (spikes : List ℚ) :
    simd_count_spikes spikes = (spikes.countP is_spike : ℚ) := by
  simp only [simd_count_spikes]
  have hle : 4 * (spikes.length / 4) ≤ spikes.length := Nat.mul_div_le spikes.length 4
  rw [sum_range_map_getD spikes (fun x => if is_spike x then (1 : ℚ) else 0) _ hle,
    List.map_drop, ← List.sum_append, List.take_append_drop, indicator_sum_countP]

lemma process_spike_train_eq (rt : NeuralRuntime) (spikes : List ℚ) (w : ℚ) :
    rt.process_spike_train spikes w =
      (rt.bump, if spikes = [] ∨ w ≤ 0 then 0
        else (spikes.countP is_spike : ℚ) / (w / 1000)) := by
  simp only [NeuralRuntime.process_spike_train]
  split_ifs with h1 h2
  · rfl
  · rw [simd_count_spikes_eq]
  · rfl

/-! ## Vector summation and mesh efficiency (lib.rs:268-309) -/

/-- `simd_sum` (lib.rs:290-309): a 4-lane accumulator, one lane per
residue class of the index, accumulated over the full chunks; the four
lane totals are then added left to right and the scalar sum of the tail
is added last. -/
def simd_sum (values : List ℚ) : ℚ :=
  let chunks := values.length / 4
  let lane : ℕ → ℚ := fun j =>
    ((List.range chunks).map (fun i => values.getD (4 * i + j) 0)).sum
  (0 + lane 0 + lane 1 + lane 2 + lane 3) + (values.drop (4 * chunks)).sum

/-- `calculate_mesh_efficiency` (lib.rs:268-288). -/
def NeuralRuntime.calculate_mesh_efficiency (rt : NeuralRuntime)
    (neurons synapses : List ℚ) : NeuralRuntime × ℚ :=
  let rt' := rt.bump
  if neurons = [] ∨ synapses = [] then (rt', 0)
  else
    let neuron_activity :=
      if rt'.simd_enabled ∧ 4 ≤ neurons.length then simd_sum neurons / (neurons.length : ℚ)
      else neurons.sum / (neurons.length : ℚ)
    let synapse_weight :=
      if rt'.simd_enabled ∧ 4 ≤ synapses.length then simd_sum synapses / (synapses.length : ℚ)
      else synapses.sum / (synapses.length : ℚ)
    (rt', neuron_activity * synapse_weight)

lemma lanes_sum (l : List ℚ) :
    ∀ c, 4 * c ≤ l.length →
      ((List.range c).map (fun i => l.getD (4 * i) 0)).sum
      + ((List.range c).map (fun i => l.getD (4 * i + 1) 0)).sum
      + ((List.range c).map (fun i => l.getD (4 * i + 2) 0)).sum
      + ((List.range c).map (fun i => l.getD (4 * i + 3) 0)).sum
      = (l.take (4 * c)).sum := by
  intro c
  induction c with
  | zero => simp
  | succ c ih =>
    intro h
    have h0 : 4 * c ≤ l.length := by omega
    have e4 : 4 * (c + 1) = (4 * c + 3) + 1 := by ring
    have h3 : 4 * c + 3 < l.length := by omega
    have h2 : 4 * c + 2 < l.length := by omega
    have h1 : 4 * c + 1 < l.length := by omega
    have hc : 4 * c < l.length := by omega
    rw [e4, sum_take_succ l _ h3,
      show 4 * c + 3 = (4 * c + 2) + 1 from rfl, sum_take_succ l _ h2,
      show 4 * c + 2 = (4 * c + 1) + 1 from rfl, sum_take_succ l _ h1,
      show 4 * c + 1 = 4 * c + 1 from rfl, sum_take_succ l _ hc,
      ← ih h0]
    rw [List.range_succ]
    simp only [List.map_append, List.sum_append, List.map_cons, List.map_nil,
      List.sum_cons, List.sum_nil]
    ring

/-- The lane-grouped sum equals the plain left-to-right sum (exact
rational arithmetic is commutative, so the reassociation the SIMD
accumulator performs is invisible here). -/
lemma simd_sum_eq (values : List ℚ) : simd_sum values = values.sum := by
  unfold simd_sum
  have hle : 4 * (values.length / 4) ≤ values.length := Nat.mul_div_le values.length 4
  have hl := lanes_sum values (values.length / 4) hle
  simp only [zero_add]
  calc ((List.range (values.length / 4)).map (fun i => values.getD (4 * i + 0) 0)).sum
        + ((List.range (values.length / 4)).map (fun i => values.getD (4 * i + 1) 0)).sum
        + ((List.range (values.length / 4)).map (fun i => values.getD (4 * i + 2) 0)).sum
        + ((List.range (values.length / 4)).map (fun i => values.getD (4 * i + 3) 0)).sum
        + (values.drop (4 * (values.length / 4))).sum
      = (values.take (4 * (values.length / 4))).sum
        + (values.drop (4 * (values.length / 4))).sum := by
        rw [show (fun i => values.getD (4 * i + 0) 0) = (fun i => values.getD (4 * i) 0) from by
          funext i; norm_num]
        rw [hl]
    _ = values.sum := by rw [← List.sum_append, List.take_append_drop]

lemma mesh_efficiency_eq (rt : NeuralRuntime) (neurons synapses : List ℚ) :
    rt.calculate_mesh_efficiency neurons synapses =
      (rt.bump, if neurons = [] ∨ synapses = [] then 0
        else (neurons.sum / (neurons.length : ℚ)) * (synapses.sum / (synapses.length : ℚ))) := by
  simp only [NeuralRuntime.calculate_mesh_efficiency]
  split_ifs with h1 h2 h3 <;> rw [Prod.mk.injEq] <;>
    simp [simd_sum_eq]

/-! ## Input validation and neural activation (lib.rs:41-128) -/

/-- The per-element validation loop (lib.rs:48-55): elements are scanned
in index order; each element is checked for finiteness first, then for
the magnitude bound, and the scan aborts at the first offender. -/
def validate_elems : List F32 → Except ValidationError Unit
  | [] => .ok ()
  | x :: rest =>
    if !x.isFinite then .error .NonFiniteValue
    else if x.absGt1000 then .error .OutOfBounds
    else validate_elems rest

/-- The validation gate of `calculate_neural_activation` (lib.rs:43-55):
the size check precedes the element scan. -/
def validate (inputs : List F32) : Except ValidationError Unit :=
  if 10000 < inputs.length then .error .SizeLimitExceeded
  else validate_elems inputs

/-- Validator transcribed from the wording of claim C3, which ranks
`NonFiniteValue` over `OutOfBounds` globally ("otherwise it fails with
NonFiniteValue if and only if some element is NaN or infinite;
otherwise it fails with OutOfBounds if and only if some element has
absolute value exceeding 1000.0").  Kept solely to compare this reading
of the claim with `validate` as transcribed from the source. -/
def validate_spec (inputs : List F32) : Except ValidationError Unit :=
  if 10000 < inputs.length then .error .SizeLimitExceeded
  else if inputs.any (fun x => !x.isFinite) then .error .NonFiniteValue
  else if inputs.any (fun x => x.absGt1000) then .error .OutOfBounds
  else .ok ()

/-- `simd_tanh_approx` (lib.rs:116-123), one lane: `x / (1 + |x|)`. -/
noncomputable def tanh_approx (x : ℝ) : ℝ := x / (1 + |x|)

/-- `scalar_neural_activation` (lib.rs:126-128): `(x * 0.5).tanh()`. -/
noncomputable def scalar_neural_activation (inputs : List ℝ) : List ℝ :=
  inputs.map (fun x => Real.tanh (x * (1/2)))

/-- Element `i` of `simd_neural_activation` (lib.rs:67-113).  The chunk
loop covers indices below `4 * (len / 4)`; its overflow guard
`base_idx + 3 >= inputs.len()` never fires there (`4*i + 3 < 4*chunks ≤
len`), and the "unaligned access" guard `(base_idx * 4) % 16 != 0` is
transcribed verbatim even though `base_idx` is always a multiple of 4,
making the scalar fallback inside the chunk loop dead code.  The tail
loop applies exact `tanh` to the remaining indices. -/
noncomputable def simd_activation_elem (inputs : List ℝ) (i : ℕ) : ℝ :=
  if i < 4 * (inputs.length / 4) then
    if i / 4 * 4 * 4 % 16 ≠ 0 then Real.tanh (inputs.getD i 0 * (1/2))
    else tanh_approx (inputs.getD i 0 * (1/2))
  else Real.tanh (inputs.getD i 0 * (1/2))

/-- `simd_neural_activation` (lib.rs:67-113): the output vector is
preallocated at input length and written index by index. -/
noncomputable def simd_neural_activation (inputs : List ℝ) : List ℝ :=
  (List.range inputs.length).map (simd_activation_elem inputs)

/-- `calculate_neural_activation` (lib.rs:41-64): validation runs before
any state is touched; on success the operation counter is bumped once
and the call dispatches on the SIMD flag and the input length. -/
noncomputable def NeuralRuntime.calculate_neural_activation (rt : NeuralRuntime)
    (inputs : List F32) : Except ValidationError (NeuralRuntime × List ℝ) :=
  match validate inputs with
  | .error e => .error e
  | .ok _ =>
    let rt' := rt.bump
    let xs := inputs.map F32.toReal
    .ok (rt', if rt'.simd_enabled ∧ 4 ≤ inputs.length then simd_neural_activation xs
      else scalar_neural_activation xs)

lemma bump_simd_enabled (rt : NeuralRuntime) : rt.bump.simd_enabled = rt.simd_enabled := rfl

lemma validate_elems_eq_find (l : List F32) :
    validate_elems l =
      match l.find? (fun x => !x.isFinite || x.absGt1000) with
      | some x => .error (if x.isFinite then .OutOfBounds else .NonFiniteValue)
      | none => .ok () := by
  induction l with
  | nil => rfl
  | cons a t ih =>
    by_cases hf : a.isFinite
    · by_cases hb : a.absGt1000
      · simp [validate_elems, List.find?_cons, hf, hb]
      · simp [validate_elems, List.find?_cons, hf, hb, ih]
    · simp [validate_elems, List.find?_cons, hf]

lemma validate_elems_ok (l : List F32) (hfin : ∀ x ∈ l, x.isFinite = true)
    (hbnd : ∀ x ∈ l, x.absGt1000 = false) : validate_elems l = .ok () := by
  induction l with
  | nil => rfl
  | cons a t ih =>
    have ha := hfin a (by simp)
    have hb := hbnd a (by simp)
    simp only [validate_elems, ha, hb]
    simp only [Bool.not_true, if_neg, Bool.false_eq_true, if_false, reduceIte]
    exact ih (fun x hx => hfin x (by simp [hx])) (fun x hx => hbnd x (by simp [hx]))

lemma validate_ok (inputs : List F32) (hlen : inputs.length ≤ 10000)
    (hfin : ∀ x ∈ inputs, x.isFinite = true)
    (hbnd : ∀ x ∈ inputs, x.absGt1000 = false) : validate inputs = .ok () := by
  unfold validate
  rw [if_neg (by omega)]
  exact validate_elems_ok inputs hfin hbnd

lemma calculate_ok (rt : NeuralRuntime) (inputs : List F32)
    (h : validate inputs = .ok ()) :
    rt.calculate_neural_activation inputs =
      .ok (rt.bump, if rt.simd_enabled ∧ 4 ≤ inputs.length
        then simd_neural_activation (inputs.map F32.toReal)
        else scalar_neural_activation (inputs.map F32.toReal)) := by
  simp only [NeuralRuntime.calculate_neural_activation, h, bump_simd_enabled]

lemma calculate_err (rt : NeuralRuntime) (inputs : List F32) (e : ValidationError)
    (h : validate inputs = .error e) :
    rt.calculate_neural_activation inputs = .error e := by
  simp only [NeuralRuntime.calculate_neural_activation, h]

/-! ### Bounds on `tanh` and its SIMD approximation -/

lemma tanh_nonneg_of_nonneg {s : ℝ} (h : 0 ≤ s) : 0 ≤ Real.tanh s := by
  rw [Real.tanh_eq_sinh_div_cosh]
  exact div_nonneg (Real.sinh_nonneg_iff.mpr h) (Real.cosh_pos s).le

lemma tanh_lt_one_all (s : ℝ) : Real.tanh s < 1 := by
  rw [Real.tanh_eq_sinh_div_cosh]
  exact (div_lt_one (Real.cosh_pos s)).mpr (Real.sinh_lt_cosh s)

lemma tanh_approx_nonneg {s : ℝ} (h : 0 ≤ s) : 0 ≤ tanh_approx s :=
  div_nonneg h (by positivity)

lemma tanh_approx_lt_one {s : ℝ} (h : 0 ≤ s) : tanh_approx s < 1 := by
  unfold tanh_approx
  rw [abs_of_nonneg h]
  exact (div_lt_one (by linarith)).mpr (by linarith)

lemma tanh_approx_neg (s : ℝ) : tanh_approx (-s) = -tanh_approx s := by
  unfold tanh_approx
  rw [abs_neg, neg_div]

/-- The deviation between the SIMD lane formula and exact `tanh` is
(strictly) below 1 everywhere: for arguments of one sign both values lie
in the same half-open unit interval. -/
lemma tanh_approx_dev (s : ℝ) : |tanh_approx s - Real.tanh s| < 1 := by
  rcases le_or_lt 0 s with h | h
  · have h1 := tanh_approx_nonneg h
    have h2 := tanh_approx_lt_one h
    have h3 := tanh_nonneg_of_nonneg h
    have h4 := tanh_lt_one_all s
    rw [abs_lt]
    constructor <;> linarith
  · have hs : 0 ≤ -s := by linarith
    have e1 : tanh_approx s = -tanh_approx (-s) := by rw [tanh_approx_neg, neg_neg]
    have e2 : Real.tanh s = -Real.tanh (-s) := by rw [Real.tanh_neg, neg_neg]
    have h1 := tanh_approx_nonneg hs
    have h2 := tanh_approx_lt_one hs
    have h3 := tanh_nonneg_of_nonneg hs
    have h4 := tanh_lt_one_all (-s)
    rw [abs_lt, e1, e2]
    constructor <;> linarith

/-- `tanh 1 > 13/25 = 0.52`, so the SIMD approximation `1/2` at `s = 1`
is off by more than `0.02`. -/
lemma tanh_one_gt : (13 : ℝ)/25 < Real.tanh 1 := by
  have he : (2.7182818283 : ℝ) < Real.exp 1 := Real.exp_one_gt_d9
  have hpos : (0 : ℝ) < Real.exp 1 := Real.exp_pos 1
  have hu : (0 : ℝ) < (Real.exp 1)⁻¹ := inv_pos.mpr hpos
  have hprod : Real.exp 1 * (Real.exp 1)⁻¹ = 1 := mul_inv_cancel₀ (ne_of_gt hpos)
  rw [Real.tanh_eq_sinh_div_cosh, Real.sinh_eq, Real.cosh_eq, Real.exp_neg]
  have hden : (0 : ℝ) < (Real.exp 1 + (Real.exp 1)⁻¹) / 2 := by positivity
  rw [lt_div_iff₀ hden]
  nlinarith [he, hu, hprod]

lemma simd_activation_elem_full (inputs : List ℝ) (i : ℕ)
    (h : i < 4 * (inputs.length / 4)) :
    simd_activation_elem inputs i = tanh_approx (inputs.getD i 0 * (1/2)) := by
  unfold simd_activation_elem
  rw [if_pos h, if_neg (by omega)]

lemma simd_activation_elem_tail (inputs : List ℝ) (i : ℕ)
    (h : ¬ i < 4 * (inputs.length / 4)) :
    simd_activation_elem inputs i = Real.tanh (inputs.getD i 0 * (1/2)) := by
  unfold simd_activation_elem
  rw [if_neg h]

lemma simd_neural_activation_length (inputs : List ℝ) :
    (simd_neural_activation inputs).length = inputs.length := by
  simp [simd_neural_activation]

lemma scalar_neural_activation_length (inputs : List ℝ) :
    (scalar_neural_activation inputs).length = inputs.length := by
  simp [scalar_neural_activation]

lemma simd_neural_activation_getD (inputs : List ℝ) (i : ℕ) (h : i < inputs.length) :
    (simd_neural_activation inputs).getD i 0 = simd_activation_elem inputs i := by
  unfold simd_neural_activation
  rw [List.getD_eq_getElem _ 0 (by simpa using h)]
  simp

lemma scalar_neural_activation_getD (inputs : List ℝ) (i : ℕ) (h : i < inputs.length) :
    (scalar_neural_activation inputs).getD i 0 = Real.tanh (inputs.getD i 0 * (1/2)) := by
  unfold scalar_neural_activation
  rw [List.getD_eq_getElem _ 0 (by simpa using h), List.getElem_map,
    List.getD_eq_getElem _ 0 h]

/-! ## Claim theorems -/

/-- C1 (evaluation at the failing input): the generator does NOT stay
strictly below 1.  At `operations_count = 32607900` (a valid `u32`
counter) the scrambled 64-bit value `18446743636734699926` lies within
`2^39` of `2^64`, so `x as f32` rounds up to `2^64`; the divisor
`u64::MAX as f32` is also exactly `2^64`, and the division returns
exactly `1.0` — contradicting the claimed half-open interval `[0,1)`
and the comment in the source itself: Convert to [0,1) range. -/
theorem pseudo_random_hits_one :
    32607900 < 2 ^ 32 ∧
    ({ NeuralRuntime.new with operations_count := 32607900 } : NeuralRuntime).pseudo_random
      = 1 := by
  constructor
  · decide
  · have h1 : f32_round_nat (xorshift64 (lcg_seed 32607900)) = 2 ^ 64 := by decide
    have h2 : f32_round_nat (2 ^ 64 - 1) = 2 ^ 64 := by decide
    unfold NeuralRuntime.pseudo_random
    rw [show ({ NeuralRuntime.new with operations_count := 32607900 } :
          NeuralRuntime).operations_count = 32607900 from rfl, h1, h2]
    norm_num

/-- C4: for every connections vector and every runtime state (hence
every fixed `operations_count`), the lane-grouped optimization path and
the pure scalar path produce identical output vectors. -/
theorem optimize_paths_agree (rt : NeuralRuntime) (conns : List ℚ) :
    rt.simd_optimize_connections conns = rt.scalar_optimize_connections conns :=
  optimize_paths_eq rt conns

/-- C5: `optimize_connections` preserves the length, computes
`clamp(connections[i] + (rand - 0.5) * 0.1, 0, 1)` elementwise, and
every output element lies in `[0, 1]`, whichever path executes. -/
theorem optimize_output_clamped (rt : NeuralRuntime) (conns : List ℚ) :
    ((rt.optimize_connections conns).2).length = conns.length ∧
    ∀ i, i < conns.length →
      ((rt.optimize_connections conns).2.getD i 0 =
          rust_clamp (conns.getD i 0 + (rt.bump.pseudo_random - 1/2) * (1/10)) 0 1 ∧
        0 ≤ (rt.optimize_connections conns).2.getD i 0 ∧
        (rt.optimize_connections conns).2.getD i 0 ≤ 1) := by
  rw [optimize_connections_eq]
  refine ⟨by simp, ?_⟩
  intro i h
  have hm : i < (conns.map (fun w =>
      rust_clamp (w + (rt.bump.pseudo_random - 1/2) * (1/10)) 0 1)).length := by
    simpa using h
  rw [List.getD_eq_getElem _ 0 hm, List.getElem_map]
  exact ⟨by rw [List.getD_eq_getElem conns 0 h], rust_clamp_nonneg _, rust_clamp_le_one _⟩

/-- Witness for C5 at the concrete state `new` and input `[1/2]`. -/
theorem optimize_output_clamped_witness :
    0 < ([1/2] : List ℚ).length ∧
      ((NeuralRuntime.new.optimize_connections ([1/2] : List ℚ)).2.getD 0 0 =
          rust_clamp (([1/2] : List ℚ).getD 0 0 +
            (NeuralRuntime.new.bump.pseudo_random - 1/2) * (1/10)) 0 1 ∧
        0 ≤ (NeuralRuntime.new.optimize_connections ([1/2] : List ℚ)).2.getD 0 0 ∧
        (NeuralRuntime.new.optimize_connections ([1/2] : List ℚ)).2.getD 0 0 ≤ 1) :=
  ⟨by decide, (optimize_output_clamped NeuralRuntime.new ([1/2] : List ℚ)).2 0 (by decide)⟩

/-- C10: within one `optimize_connections` call the counter is bumped
exactly once at entry, the generator is a pure function of the counter,
and every element receives the identical jitter `(rand - 0.5) * 0.1`
from that single post-bump draw. -/
theorem optimize_single_draw_per_call (rt : NeuralRuntime) (conns : List ℚ) :
    (rt.optimize_connections conns).1 = rt.bump ∧
    (rt.optimize_connections conns).2 =
      conns.map (fun w => rust_clamp (w + (rt.bump.pseudo_random - 1/2) * (1/10)) 0 1) := by
  rw [optimize_connections_eq]
  exact ⟨rfl, rfl⟩

/-- C8: `deallocate_memory` performs a saturating subtraction on
`memory_usage` (never underflowing below 0), usage stays non-negative
under both memory operations, and deallocating 1000 bytes from a pool
with 400 recorded bytes leaves exactly 0. -/
theorem memory_usage_saturates :
    (∀ (rt : NeuralRuntime) (size : ℕ),
        ((rt.deallocate_memory size).memory_usage : ℤ) =
          max ((rt.memory_usage : ℤ) - (size : ℤ)) 0) ∧
    (∀ (rt : NeuralRuntime) (size : ℕ),
        0 ≤ ((rt.deallocate_memory size).memory_usage : ℤ) ∧
        0 ≤ ((rt.allocate_memory size).1.memory_usage : ℤ)) ∧
    ((NeuralRuntime.new.allocate_memory 400).1.deallocate_memory 1000).memory_usage = 0 := by
  refine ⟨?_, ?_, by decide⟩
  · intro rt size
    rw [deallocate_memory_usage]
    omega
  · intro rt size
    exact ⟨Int.natCast_nonneg _, Int.natCast_nonneg _⟩

/-- C9: `allocate_memory` returns the previous logical length in bytes,
grows the logical length by exactly `size / 4` elements, keeps the
length within the (possibly reserved) capacity, adds `size` to
`memory_usage`, and on a fresh pool `allocate(400)` makes
`get_memory_usage` report exactly a 400-byte increase. -/
theorem allocate_memory_spec :
    (∀ (rt : NeuralRuntime) (size : ℕ),
        (rt.allocate_memory size).2 = rt.memory_pool_len * 4 ∧
        (rt.allocate_memory size).1.memory_pool_len = rt.memory_pool_len + size / 4 ∧
        (rt.allocate_memory size).1.memory_usage = rt.memory_usage + size ∧
        (rt.allocate_memory size).1.memory_pool_len ≤
          (rt.allocate_memory size).1.memory_pool_cap ∧
        rt.memory_pool_cap ≤ (rt.allocate_memory size).1.memory_pool_cap) ∧
    (NeuralRuntime.new.allocate_memory 400).1.get_memory_usage =
      NeuralRuntime.new.get_memory_usage + 400 := by
  refine ⟨?_, by decide⟩
  intro rt size
  refine ⟨rfl, rfl, rfl, ?_, ?_⟩ <;>
    · simp only [NeuralRuntime.allocate_memory]
      split <;> omega

/-- C6: the spike rate is 0 when the train is empty or the window is
non-positive, and otherwise `count / (window / 1000)` where `count` is
the number of elements strictly above 0.1; the lane-grouped counting
path agrees exactly with the straightforward per-element count; and the
two documented examples hold. -/
theorem spike_rate_spec :
    (∀ (rt : NeuralRuntime) (spikes : List ℚ) (w : ℚ),
        (rt.process_spike_train spikes w).2 =
          if spikes = [] ∨ w ≤ 0 then 0
          else (spikes.countP is_spike : ℚ) / (w / 1000)) ∧
    (∀ spikes : List ℚ, simd_count_spikes spikes = (spikes.countP is_spike : ℚ)) ∧
    (∀ rt : NeuralRuntime, (rt.process_spike_train [] 100).2 = 0) ∧
    (∀ rt : NeuralRuntime,
        (rt.process_spike_train ([2/10, 5/100, 3/10, 5/10] : List ℚ) 1000).2 = 3) := by
  refine ⟨?_, simd_count_spikes_eq, ?_, ?_⟩
  · intro rt spikes w
    rw [process_spike_train_eq]
  · intro rt
    rw [process_spike_train_eq]
    simp
  · intro rt
    rw [process_spike_train_eq]
    have hcond : ¬(([2/10, 5/100, 3/10, 5/10] : List ℚ) = [] ∨ (1000:ℚ) ≤ 0) := by
      push_neg
      exact ⟨by simp, by norm_num⟩
    rw [if_neg hcond,
      show ([2/10, 5/100, 3/10, 5/10] : List ℚ).countP is_spike = 3 from by
        norm_num [List.countP_cons, List.countP_nil, is_spike]]
    norm_num

/-- C7: the mesh efficiency is 0 when either input is empty and
otherwise the product of the two means `sum / len`, the lane-grouped
summation agreeing with the plain sum; the two documented examples
hold. -/
theorem mesh_efficiency_spec :
    (∀ (rt : NeuralRuntime) (neurons synapses : List ℚ),
        (rt.calculate_mesh_efficiency neurons synapses).2 =
          if neurons = [] ∨ synapses = [] then 0
          else (neurons.sum / (neurons.length : ℚ)) *
            (synapses.sum / (synapses.length : ℚ))) ∧
    (∀ values : List ℚ, simd_sum values = values.sum) ∧
    (∀ rt : NeuralRuntime, (rt.calculate_mesh_efficiency [] ([1, 2] : List ℚ)).2 = 0) ∧
    (∀ rt : NeuralRuntime,
        (rt.calculate_mesh_efficiency ([1/2, 1/2] : List ℚ) ([1, 1] : List ℚ)).2 = 1/2) := by
  refine ⟨?_, simd_sum_eq, ?_, ?_⟩
  · intro rt neurons synapses
    rw [mesh_efficiency_eq]
  · intro rt
    rw [mesh_efficiency_eq]
    simp
  · intro rt
    rw [mesh_efficiency_eq]
    have hcond : ¬(([1/2, 1/2] : List ℚ) = [] ∨ ([1, 1] : List ℚ) = []) := by
      push_neg
      exact ⟨by simp, by simp⟩
    rw [if_neg hcond]
    norm_num

/-- C2 counterexample: the input `[2,2,2,2]` is valid (length ≤ 10000,
every magnitude ≤ 1000) and is handled by the lane-grouped path, whose
element 0 is `1/2`, while the scalar exact-tanh formula gives `tanh 1`
there; the two paths deviate by more than the claimed tolerance
`0.02 = 1/50`. -/
theorem activation_tolerance_counterexample :
    (([(2:ℝ), 2, 2, 2] : List ℝ).length ≤ 10000 ∧
      ∀ x ∈ ([(2:ℝ), 2, 2, 2] : List ℝ), |x| ≤ 1000) ∧
    (simd_neural_activation [(2:ℝ), 2, 2, 2]).getD 0 0 = 1/2 ∧
    (scalar_neural_activation [(2:ℝ), 2, 2, 2]).getD 0 0 = Real.tanh 1 ∧
    (1:ℝ)/50 <
      |(simd_neural_activation [(2:ℝ), 2, 2, 2]).getD 0 0 -
        (scalar_neural_activation [(2:ℝ), 2, 2, 2]).getD 0 0| := by
  have hs : (simd_neural_activation [(2:ℝ), 2, 2, 2]).getD 0 0 = 1/2 := by
    rw [simd_neural_activation_getD _ 0 (by norm_num),
      simd_activation_elem_full _ 0 (by norm_num)]
    norm_num [tanh_approx]
  have hc : (scalar_neural_activation [(2:ℝ), 2, 2, 2]).getD 0 0 = Real.tanh 1 := by
    rw [scalar_neural_activation_getD _ 0 (by norm_num)]
    norm_num
  refine ⟨⟨by norm_num, ?_⟩, hs, hc, ?_⟩
  · intro x hx
    simp only [List.mem_cons, List.not_mem_nil, or_false] at hx
    rcases hx with rfl | rfl | rfl | rfl <;> norm_num
  · rw [hs, hc]
    have h1 := tanh_one_gt
    have h2 := tanh_lt_one_all 1
    rw [abs_sub_comm, abs_of_nonneg (by linarith)]
    linarith

/-- C2 (amended): for every valid input (length ≤ 10000, all elements
finite with magnitude ≤ 1000), activation succeeds with an output of
the input length; the scalar path computes `tanh(x * 0.5)` exactly
(hence within 1e-6); on the lane-grouped path every index inside a full
group of 4 gets the rational approximation `s / (1 + |s|)` (all groups
are aligned: the unaligned-boundary fallback is dead code) and the tail
gets exact `tanh`; and the deviation between the two paths is bounded
by 1.0 — not by the example tolerance 0.02, which the counterexample
refutes. -/
theorem activation_dual_path_spec (rt : NeuralRuntime) (inputs : List F32)
    (hlen : inputs.length ≤ 10000)
    (hfin : ∀ x ∈ inputs, x.isFinite = true)
    (hbnd : ∀ x ∈ inputs, x.absGt1000 = false) :
    rt.calculate_neural_activation inputs =
      .ok (rt.bump, if rt.simd_enabled ∧ 4 ≤ inputs.length
        then simd_neural_activation (inputs.map F32.toReal)
        else scalar_neural_activation (inputs.map F32.toReal)) ∧
    (simd_neural_activation (inputs.map F32.toReal)).length = inputs.length ∧
    (scalar_neural_activation (inputs.map F32.toReal)).length = inputs.length ∧
    (∀ i, i < inputs.length →
      (scalar_neural_activation (inputs.map F32.toReal)).getD i 0 =
        Real.tanh ((inputs.map F32.toReal).getD i 0 * (1/2))) ∧
    (∀ i, i < inputs.length →
      (simd_neural_activation (inputs.map F32.toReal)).getD i 0 =
        if i < 4 * (inputs.length / 4)
          then tanh_approx ((inputs.map F32.toReal).getD i 0 * (1/2))
          else Real.tanh ((inputs.map F32.toReal).getD i 0 * (1/2))) ∧
    (∀ i, i < inputs.length →
      |(simd_neural_activation (inputs.map F32.toReal)).getD i 0 -
        (scalar_neural_activation (inputs.map F32.toReal)).getD i 0| < 1) := by
  have hmaplen : (inputs.map F32.toReal).length = inputs.length := by simp
  refine ⟨calculate_ok rt inputs (validate_ok inputs hlen hfin hbnd), ?_, ?_, ?_, ?_, ?_⟩
  · rw [simd_neural_activation_length, hmaplen]
  · rw [scalar_neural_activation_length, hmaplen]
  · intro i h
    exact scalar_neural_activation_getD _ i (by rwa [hmaplen])
  · intro i h
    rw [simd_neural_activation_getD _ i (by rwa [hmaplen])]
    by_cases hful : i < 4 * ((inputs.map F32.toReal).length / 4)
    · rw [simd_activation_elem_full _ i hful, if_pos (by rwa [hmaplen] at hful)]
    · rw [simd_activation_elem_tail _ i hful, if_neg (by rwa [hmaplen] at hful)]
  · intro i h
    rw [simd_neural_activation_getD _ i (by rwa [hmaplen]),
      scalar_neural_activation_getD _ i (by rwa [hmaplen])]
    by_cases hful : i < 4 * ((inputs.map F32.toReal).length / 4)
    · rw [simd_activation_elem_full _ i hful]
      exact tanh_approx_dev _
    · rw [simd_activation_elem_tail _ i hful]
      simp

/-- Witness for C2 (amended) at the concrete state `new` and the valid
input `[2,2,2,2]`. -/
theorem activation_dual_path_spec_witness :
    NeuralRuntime.new.calculate_neural_activation
        [F32.finite 2, F32.finite 2, F32.finite 2, F32.finite 2] =
      .ok (NeuralRuntime.new.bump,
        if NeuralRuntime.new.simd_enabled ∧
            4 ≤ ([F32.finite 2, F32.finite 2, F32.finite 2, F32.finite 2] : List F32).length
        then simd_neural_activation
          (([F32.finite 2, F32.finite 2, F32.finite 2, F32.finite 2] : List F32).map F32.toReal)
        else scalar_neural_activation
          (([F32.finite 2, F32.finite 2, F32.finite 2, F32.finite 2] : List F32).map
            F32.toReal)) :=
  (activation_dual_path_spec NeuralRuntime.new
    [F32.finite 2, F32.finite 2, F32.finite 2, F32.finite 2]
    (by decide) (by decide) (by decide)).1

/-- C3 counterexample: on `[2000.0, NaN]` (length within bounds, with a
NaN present) the activation entry point fails with `OutOfBounds` — the
scan hits the finite out-of-range element first — whereas the global
ranking in the claim ("NonFiniteValue iff some element is NaN or
infinite") demands `NonFiniteValue`, as `validate_spec`, transcribed
from the claim wording, shows. -/
theorem validation_order_counterexample :
    ([F32.finite 2000, F32.nan] : List F32).length ≤ 10000 ∧
    (F32.nan ∈ ([F32.finite 2000, F32.nan] : List F32) ∧ F32.nan.isFinite = false) ∧
    NeuralRuntime.new.calculate_neural_activation [F32.finite 2000, F32.nan] =
      .error .OutOfBounds ∧
    validate_spec [F32.finite 2000, F32.nan] = .error .NonFiniteValue := by
  have hv : validate [F32.finite 2000, F32.nan] = .error .OutOfBounds := rfl
  exact ⟨by decide, ⟨by decide, rfl⟩, calculate_err _ _ _ hv, rfl⟩

/-- C3 (amended): `SizeLimitExceeded` is returned iff the length
exceeds 10000; otherwise the elements are scanned in index order and
the first offending element decides the error — `NonFiniteValue` if it
is NaN or infinite, `OutOfBounds` if it is finite with magnitude above
1000; with no offender the call succeeds, having changed nothing but
the operation counter (bumped once, after validation). On failure no
output and no successor state is produced. -/
theorem activation_error_taxonomy (rt : NeuralRuntime) (inputs : List F32) :
    (rt.calculate_neural_activation inputs = .error .SizeLimitExceeded ↔
      10000 < inputs.length) ∧
    (inputs.length ≤ 10000 →
      rt.calculate_neural_activation inputs =
        match inputs.find? (fun x => !x.isFinite || x.absGt1000) with
        | some x => .error (if x.isFinite then .OutOfBounds else .NonFiniteValue)
        | none => .ok (rt.bump, if rt.simd_enabled ∧ 4 ≤ inputs.length
            then simd_neural_activation (inputs.map F32.toReal)
            else scalar_neural_activation (inputs.map F32.toReal))) := by
  have key : inputs.length ≤ 10000 →
      rt.calculate_neural_activation inputs =
        match inputs.find? (fun x => !x.isFinite || x.absGt1000) with
        | some x => .error (if x.isFinite then .OutOfBounds else .NonFiniteValue)
        | none => .ok (rt.bump, if rt.simd_enabled ∧ 4 ≤ inputs.length
            then simd_neural_activation (inputs.map F32.toReal)
            else scalar_neural_activation (inputs.map F32.toReal)) := by
    intro hlen
    have hv : validate inputs = validate_elems inputs := by
      unfold validate
      rw [if_neg (by omega)]
    have hvf := validate_elems_eq_find inputs
    rcases hfind : inputs.find? (fun x => !x.isFinite || x.absGt1000) with _ | x
    · rw [hfind] at hvf
      rw [hfind]
      exact calculate_ok rt inputs (hv.trans hvf)
    · rw [hfind] at hvf
      rw [hfind]
      exact calculate_err rt inputs _ (hv.trans hvf)
  refine ⟨⟨?_, ?_⟩, key⟩
  · intro h
    by_contra hlen
    push_neg at hlen
    rw [key hlen] at h
    rcases hfind : inputs.find? (fun x => !x.isFinite || x.absGt1000) with _ | x
    · rw [hfind] at h
      simp at h
    · rw [hfind] at h
      by_cases hf : x.isFinite <;> simp [hf] at h
  · intro h
    have hv : validate inputs = .error .SizeLimitExceeded := by
      unfold validate
      rw [if_pos h]
    exact calculate_err rt inputs _ hv

/-- Witness for C3 (amended) at the concrete state `new` and input
`[2000.0, NaN]` (the length hypothesis holds and the first offender is
the finite out-of-range element). -/
theorem activation_error_taxonomy_witness :
    ([F32.finite 2000, F32.nan] : List F32).length ≤ 10000 ∧
    NeuralRuntime.new.calculate_neural_activation [F32.finite 2000, F32.nan] =
      match ([F32.finite 2000, F32.nan] : List F32).find?
          (fun x => !x.isFinite || x.absGt1000) with
      | some x => .error (if x.isFinite then .OutOfBounds else .NonFiniteValue)
      | none => .ok (NeuralRuntime.new.bump,
          if NeuralRuntime.new.simd_enabled ∧
              4 ≤ ([F32.finite 2000, F32.nan] : List F32).length
          then simd_neural_activation
            (([F32.finite 2000, F32.nan] : List F32).map F32.toReal)
          else scalar_neural_activation
            (([F32.finite 2000, F32.nan] : List F32).map F32.toReal)) :=
  ⟨by decide, (activation_error_taxonomy NeuralRuntime.new _).2 (by decide)⟩
